import Mathlib

set_option maxRecDepth 10000

/-!
Verification development for a small Express payment backend (`src/server.js`).

The server brokers order creation and payment verification between a client,
the Razorpay payment gateway and a Firestore `orders` collection.  This file
shallowly embeds the five request handlers and the HMAC-SHA256 signature
check they rely on, and proves (or refutes) the specification's claims about
them.  JavaScript values appearing in request bodies and stored documents are
modelled by `JVal`; Firestore server timestamps are modelled as natural
numbers supplied monotonically by the store at write time; machine words in
the hash are `Nat` reduced mod `2 ^ 32`.
-/

namespace KoaBackend

/-! ### SHA-256 (FIPS 180-4), as performed by Node `crypto.createHmac('sha256', ...)`.
Bytes are `Nat < 256`, words are `Nat` reduced mod `2 ^ 32`. -/

/-- Word-size modulus `2 ^ 32`. -/
def wordMod : Nat := 4294967296

/-- Addition of 32-bit words, wrapping mod `2 ^ 32`. -/
def add32 (a b : Nat) : Nat := (a + b) % wordMod

/-- Right rotation of a 32-bit word by `n` places. -/
def rotr32 (n x : Nat) : Nat := ((x >>> n) ||| (x <<< (32 - n))) % wordMod

/-- Bitwise complement of a 32-bit word. -/
def not32 (x : Nat) : Nat := 4294967295 ^^^ x

/-- SHA-256 choice function `Ch`. -/
def shaCh (x y z : Nat) : Nat := (x &&& y) ^^^ (not32 x &&& z)

/-- SHA-256 majority function `Maj`. -/
def shaMaj (x y z : Nat) : Nat := (x &&& y) ^^^ (x &&& z) ^^^ (y &&& z)

/-- SHA-256 `Σ₀`. -/
def bigS0 (x : Nat) : Nat := rotr32 2 x ^^^ rotr32 13 x ^^^ rotr32 22 x

/-- SHA-256 `Σ₁`. -/
def bigS1 (x : Nat) : Nat := rotr32 6 x ^^^ rotr32 11 x ^^^ rotr32 25 x

/-- SHA-256 `σ₀`. -/
def smallS0 (x : Nat) : Nat := rotr32 7 x ^^^ rotr32 18 x ^^^ (x >>> 3)

/-- SHA-256 `σ₁`. -/
def smallS1 (x : Nat) : Nat := rotr32 17 x ^^^ rotr32 19 x ^^^ (x >>> 10)

/-- The 64 SHA-256 round constants. -/
def shaK : List Nat :=
  [1116352408, 1899447441, 3049323471, 3921009573,
   961987163, 1508970993, 2453635748, 2870763221,
   3624381080, 310598401, 607225278, 1426881987,
   1925078388, 2162078206, 2614888103, 3248222580,
   3835390401, 4022224774, 264347078, 604807628,
   770255983, 1249150122, 1555081692, 1996064986,
   2554220882, 2821834349, 2952996808, 3210313671,
   3336571891, 3584528711, 113926993, 338241895,
   666307205, 773529912, 1294757372, 1396182291,
   1695183700, 1986661051, 2177026350, 2456956037,
   2730485921, 2820302411, 3259730800, 3345764771,
   3516065817, 3600352804, 4094571909, 275423344,
   430227734, 506948616, 659060556, 883997877,
   958139571, 1322822218, 1537002063, 1747873779,
   1955562222, 2024104815, 2227730452, 2361852424,
   2428436474, 2756734187, 3204031479, 3329325298]

/-- The running eight-word SHA-256 hash state. -/
structure ShaState where
  a : Nat
  b : Nat
  c : Nat
  d : Nat
  e : Nat
  f : Nat
  g : Nat
  h : Nat

/-- The SHA-256 initial hash value. -/
def shaInit : ShaState :=
  ⟨1779033703, 3144134277, 1013904242, 2773480762,
   1359893119, 2600822924, 528734635, 1541459225⟩

/-- One SHA-256 compression round with round constant `k` and schedule word `w`. -/
def shaRound (st : ShaState) (k w : Nat) : ShaState :=
  let t1 := add32 (add32 (add32 st.h (bigS1 st.e)) (add32 (shaCh st.e st.f st.g) k)) w
  let t2 := add32 (bigS0 st.a) (shaMaj st.a st.b st.c)
  ⟨add32 t1 t2, st.a, st.b, st.c, add32 st.d t1, st.e, st.f, st.g⟩

/-- Next message-schedule word from the sliding window `q` of the previous 16 words:
`W[t+16] = σ₁(W[t+14]) + W[t+9] + σ₀(W[t+1]) + W[t]`. -/
def nextSched (q : List Nat) : Nat :=
  add32 (add32 (smallS1 (q.getD 14 0)) (q.getD 9 0))
        (add32 (smallS0 (q.getD 1 0)) (q.getD 0 0))

/-- Run the 64 compression rounds, consuming the round constants `ks` while sliding
the 16-word schedule window `q`. -/
def shaRounds : List Nat → ShaState → List Nat → ShaState
  | [], st, _ => st
  | k :: ks, st, q => shaRounds ks (shaRound st k (q.getD 0 0)) (q.tail ++ [nextSched q])

/-- Compress one 16-word block into the hash state. -/
def shaCompress (st : ShaState) (block : List Nat) : ShaState :=
  let r := shaRounds shaK st block
  ⟨add32 st.a r.a, add32 st.b r.b, add32 st.c r.c, add32 st.d r.d,
   add32 st.e r.e, add32 st.f r.f, add32 st.g r.g, add32 st.h r.h⟩

/-- Group bytes into big-endian 32-bit words, four bytes per word. -/
def bytesToWords : List Nat → List Nat
  | b0 :: b1 :: b2 :: b3 :: rest =>
      (((b0 * 256 + b1) * 256 + b2) * 256 + b3) :: bytesToWords rest
  | _ => []

/-- SHA-256 message padding: append `128`, zero bytes to 56 mod 64, then the
64-bit big-endian bit length. -/
def padMessage (msg : List Nat) : List Nat :=
  let len := msg.length
  let zeros := (119 - (len % 64)) % 64
  let bitLen := len * 8
  msg ++ [128] ++ List.replicate zeros 0 ++
    [(bitLen >>> 56) % 256, (bitLen >>> 48) % 256, (bitLen >>> 40) % 256,
     (bitLen >>> 32) % 256, (bitLen >>> 24) % 256, (bitLen >>> 16) % 256,
     (bitLen >>> 8) % 256, bitLen % 256]

/-- Split a padded message into 64-byte blocks (the first argument is fuel,
instantiated with the list length). -/
def splitBlocks : Nat → List Nat → List (List Nat)
  | 0, _ => []
  | _, [] => []
  | fuel + 1, l => l.take 64 :: splitBlocks fuel (l.drop 64)

/-- Serialize a 32-bit word to four big-endian bytes. -/
def wordBytes (w : Nat) : List Nat :=
  [(w >>> 24) % 256, (w >>> 16) % 256, (w >>> 8) % 256, w % 256]

/-- Serialize the eight-word hash state to its 32 digest bytes. -/
def digestBytes (st : ShaState) : List Nat :=
  wordBytes st.a ++ wordBytes st.b ++ wordBytes st.c ++ wordBytes st.d ++
  wordBytes st.e ++ wordBytes st.f ++ wordBytes st.g ++ wordBytes st.h

/-- SHA-256 of a byte sequence: 32 digest bytes. -/
def sha256Bytes (msg : List Nat) : List Nat :=
  let padded := padMessage msg
  let blocks := splitBlocks padded.length padded
  digestBytes (blocks.foldl (fun st blk => shaCompress st (bytesToWords blk)) shaInit)

/-- HMAC-SHA256 (FIPS 198-1, block size 64): digest bytes of `msg` keyed by `key`. -/
def hmacSha256Bytes (key msg : List Nat) : List Nat :=
  let k0 := if 64 < key.length then sha256Bytes key else key
  let kPad := k0 ++ List.replicate (64 - k0.length) 0
  let inner := sha256Bytes (kPad.map (fun b => b ^^^ 54) ++ msg)
  sha256Bytes (kPad.map (fun b => b ^^^ 92) ++ inner)

/-- Lower-case hexadecimal digit for a value below 16. -/
def hexChar (n : Nat) : Char :=
  if n < 10 then Char.ofNat (48 + n) else Char.ofNat (87 + n)

/-- Two lower-case hex characters for one byte. -/
def byteHex (b : Nat) : List Char := [hexChar (b / 16), hexChar (b % 16)]

/-- Lower-case hex string of a byte sequence, as produced by `.digest('hex')`. -/
def bytesToHex (bs : List Nat) : String :=
  ⟨bs.foldr (fun b acc => byteHex b ++ acc) []⟩

/-- UTF-8 encoding of one character, as Node encodes string inputs to `update`. -/
def charUtf8 (c : Char) : List Nat :=
  let n := c.toNat
  if n < 128 then [n]
  else if n < 2048 then [192 + n / 64, 128 + n % 64]
  else if n < 65536 then [224 + n / 4096, 128 + (n / 64) % 64, 128 + n % 64]
  else [240 + n / 262144, 128 + (n / 4096) % 64, 128 + (n / 64) % 64, 128 + n % 64]

/-- UTF-8 bytes of a string. -/
def strBytes (s : String) : List Nat :=
  s.data.foldr (fun c acc => charUtf8 c ++ acc) []

/-- Hex HMAC-SHA256 of a string message under a string secret, exactly
`crypto.createHmac('sha256', secret).update(message).digest('hex')`. -/
def hmacSha256Hex (secret message : String) : String :=
  bytesToHex (hmacSha256Bytes (strBytes secret) (strBytes message))

/-! ### JavaScript values, JSON bodies and the Firestore-backed order store.

`JVal` models the JSON-compatible JavaScript values that travel in request
bodies and live in stored documents.  `undef` stands for an absent property
(JavaScript `undefined`); numbers are modelled as integers (the fractional
and NaN corners of IEEE doubles play no role in any claim). -/

inductive JVal where
  | undef
  | null
  | bool (b : Bool)
  | num (n : Int)
  | str (s : String)
  | arr (elems : List JVal)
  | obj (fields : List (String × JVal))

/-- JavaScript truthiness, as tested by `if (!x)`: `undefined`, `null`,
`false`, `0` and the empty string are falsy; every array and every object
(empty ones included) is truthy. -/
def truthy : JVal → Bool
  | .undef => false
  | .null => false
  | .bool b => b
  | .num n => !(n == 0)
  | .str s => !(s == "")
  | .arr _ => true
  | .obj _ => true

/-- A stored document / JSON object body: an association list of fields. -/
abbrev ORec : Type := List (String × JVal)

/-- First value bound to key `k`, the JavaScript property read `r[k]`. -/
def getField : ORec → String → Option JVal
  | [], _ => none
  | (k0, v0) :: rest, k => if k0 == k then some v0 else getField rest k

/-- Property write `r[k] = v`: overwrite the first binding of `k` in place,
or append a fresh binding. -/
def setField : ORec → String → JVal → ORec
  | [], k, v => [(k, v)]
  | (k0, v0) :: rest, k, v =>
      if k0 == k then (k, v) :: rest else (k0, v0) :: setField rest k v

/-- Apply the field writes of `upd` to `r` in order, later writes winning —
the merge performed both by `Object.assign` and by a Firestore `update`. -/
def mergeFields (r : ORec) (upd : ORec) : ORec :=
  upd.foldl (fun acc p => setField acc p.1 p.2) r

/-- Value the merge `mergeFields _ upd` leaves at key `k`: the last binding of
`k` in `upd`, if any. -/
def lastVal : ORec → String → Option JVal
  | [], _ => none
  | p :: rest, k =>
      match lastVal rest k with
      | some v => some v
      | none => if p.1 == k then some p.2 else none

/-- The `orders` collection: document id to document. -/
abbrev Store : Type := List (String × ORec)

/-- Fetch a document by id (`db.collection('orders').doc(id).get()`). -/
def storeGet : Store → String → Option ORec
  | [], _ => none
  | (k, r) :: rest, id => if k == id then some r else storeGet rest id

/-- Replace the document stored under `id` (helper for `storeUpdate`). -/
def storeSet : Store → String → ORec → Store
  | [], _, _ => []
  | (k, r) :: rest, id, newRec =>
      if k == id then (k, newRec) :: rest else (k, r) :: storeSet rest id newRec

/-- Firestore `update(id, fields)`: merge `upd` into the existing document, or
fail when no document has that id (Firestore rejects updates of absent
documents, which the handlers surface as a 500). -/
def storeUpdate (s : Store) (id : String) (upd : ORec) : Except String Store :=
  match storeGet s id with
  | none => .error "No document to update"
  | some r => .ok (storeSet s id (mergeFields r upd))

/-- An HTTP response: status code and JSON object body. -/
structure HttpResp where
  status : Nat
  body : ORec

/-- The catch-all `500 {success:false, error: message}` response every handler
produces from its `catch` block. -/
def serverError (msg : String) : HttpResp :=
  ⟨500, [("success", .bool false), ("error", .str msg)]⟩

/-! ### The create-order handler (`POST /api/create-order`). -/

/-- The six properties the create-order handler destructures from `req.body`. -/
structure CreateBody where
  userId : JVal
  userEmail : JVal
  items : JVal
  totalAmount : JVal
  userDetails : JVal
  amount : JVal

/-- The `razorpayOrderOptions` object sent to `razorpay.orders.create`
(`receipt` is the template string of `userId`, kept here as the raw value). -/
def razorpayOrderOptions (b : CreateBody) : ORec :=
  [("amount", b.amount), ("currency", .str "INR"), ("receipt", b.userId),
   ("notes", .obj [("userId", b.userId), ("userEmail", b.userEmail)])]

/-- The remote order object the Razorpay client yields on success: its id and
the echoed amount and currency. -/
structure RzpOrder where
  id : String
  amount : Int
  currency : String

/-- An observable call to an external collaborator made while handling
create-order: the gateway order creation and the store write. -/
inductive Effect where
  | gatewayCreate (options : ORec)
  | storeAdd (doc : ORec)

/-- The `firebaseOrderData` document persisted for a fresh order, with both
server timestamps resolved to the write time `now`. -/
def firebaseOrderData (b : CreateBody) (rzpId : String) (now : Nat) : ORec :=
  [("userId", b.userId), ("userEmail", b.userEmail), ("items", b.items),
   ("totalAmount", b.totalAmount), ("userDetails", b.userDetails),
   ("paymentMethod", .str "razorpay"), ("razorpayOrderId", .str rzpId),
   ("razorpayPaymentId", .null), ("razorpaySignature", .null),
   ("status", .str "pending"), ("createdAt", .num now), ("updatedAt", .num now)]

/-- The create-order handler.  `gw` is the outcome of the awaited
`razorpay.orders.create` call and `storeAddRes` the outcome of the awaited
`db.collection('orders').add` (the generated document id on success); both
awaits reject into the handler's `catch`, which answers 500.  Returns the
effect trace (in execution order), the resulting store, and the response. -/
def createOrderHandler (b : CreateBody) (gw : Except String RzpOrder)
    (storeAddRes : Except String String) (store : Store) (now : Nat) :
    List Effect × Store × HttpResp :=
  if !truthy b.userId || !truthy b.userEmail || !truthy b.items ||
     !truthy b.totalAmount || !truthy b.userDetails || !truthy b.amount then
    ([], store, ⟨400, [("success", .bool false), ("error", .str "Missing required fields")]⟩)
  else
    let options := razorpayOrderOptions b
    match gw with
    | .error e => ([.gatewayCreate options], store, serverError e)
    | .ok rzp =>
      let doc := firebaseOrderData b rzp.id now
      match storeAddRes with
      | .error e => ([.gatewayCreate options, .storeAdd doc], store, serverError e)
      | .ok newId =>
          ([.gatewayCreate options, .storeAdd doc], store ++ [(newId, doc)],
           ⟨200, [("success", .bool true), ("razorpayOrderId", .str rzp.id),
                  ("firebaseOrderId", .str newId), ("amount", .num rzp.amount),
                  ("currency", .str rzp.currency)]⟩)

/-! ### The verify-payment handler (`POST /api/verify-payment`). -/

/-- The four properties the verify-payment handler destructures from `req.body`. -/
structure VerifyBody where
  razorpay_order_id : String
  razorpay_payment_id : String
  razorpay_signature : String
  firebaseOrderId : String

/-- The shared secret: `process.env.RAZORPAY_KEY_SECRET || 'your_razorpay_secret_here'`.
An unset (`none`) or empty environment variable is falsy in JavaScript, so
`||` substitutes the hardcoded fallback literal. -/
def envSecret (env : Option String) : String :=
  match env with
  | none => "your_razorpay_secret_here"
  | some s => if s == "" then "your_razorpay_secret_here" else s

/-- The inlined signature check of the verify-payment handler, lifted out as
the pure verifier: hex HMAC-SHA256 of `a + "|" + b` keyed by `secret`,
compared to the candidate by exact string equality.  Total: it never throws. -/
def verifySig (a b secret candidate : String) : Bool :=
  let body := a ++ "|" ++ b
  let expectedSignature := hmacSha256Hex secret body
  expectedSignature == candidate

/-- The verify-payment handler.  Computes the expected signature under the
configured secret, then updates the order document to `paid` (filling payment
id, signature and `paidAt`) or to `failed`; a failing store update lands in
the `catch` and answers 500.  Returns the resulting store and the response. -/
def verifyPaymentHandler (env : Option String) (b : VerifyBody) (store : Store)
    (now : Nat) : Store × HttpResp :=
  let isAuthentic := verifySig b.razorpay_order_id b.razorpay_payment_id (envSecret env)
                       b.razorpay_signature
  if isAuthentic then
    match storeUpdate store b.firebaseOrderId
        [("razorpayPaymentId", .str b.razorpay_payment_id),
         ("razorpaySignature", .str b.razorpay_signature),
         ("status", .str "paid"), ("paidAt", .num now), ("updatedAt", .num now)] with
    | .error e => (store, serverError e)
    | .ok s2 => (s2, ⟨200, [("success", .bool true),
                            ("message", .str "Payment verified successfully")]⟩)
  else
    match storeUpdate store b.firebaseOrderId
        [("status", .str "failed"), ("updatedAt", .num now)] with
    | .error e => (store, serverError e)
    | .ok s2 => (s2, ⟨400, [("success", .bool false),
                            ("message", .str "Payment verification failed")]⟩)

/-! ### The update-order-status handler (`POST /api/update-order-status`). -/

/-- `Object.assign(target, source)`: copy the fields of an object source onto
`target` in order.  Claim-relevant sources are objects; a primitive source
contributes no named fields. -/
def objAssign (target : ORec) : JVal → ORec
  | .obj fs => mergeFields target fs
  | _ => target

/-- The update-order-status handler: build `updateData` from the supplied
status and a fresh `updatedAt`, `Object.assign` the caller's `paymentDetails`
over it when truthy, and apply it with a Firestore update. -/
def updateOrderStatusHandler (firebaseOrderId : String) (status : JVal)
    (paymentDetails : JVal) (store : Store) (now : Nat) : Store × HttpResp :=
  let updateData : ORec := [("status", status), ("updatedAt", .num now)]
  let updateData := if truthy paymentDetails then objAssign updateData paymentDetails
                    else updateData
  match storeUpdate store firebaseOrderId updateData with
  | .error e => (store, serverError e)
  | .ok s2 => (s2, ⟨200, [("success", .bool true),
                          ("message", .str "Order status updated successfully")]⟩)

/-! ### The read endpoints (`GET /api/order/:orderId`, `GET /api/orders/:userId`). -/

/-- The get-order handler: fetch the document or answer
`404 {success:false, error:'Order not found'}`. -/
def getOrderHandler (orderId : String) (store : Store) : HttpResp :=
  match storeGet store orderId with
  | none => ⟨404, [("success", .bool false), ("error", .str "Order not found")]⟩
  | some r => ⟨200, [("success", .bool true), ("order", .obj (("id", .str orderId) :: r))]⟩

/-- The `createdAt` field of a document, when it is a (timestamp) number. -/
def createdAtNum (r : ORec) : Option Int :=
  match getField r "createdAt" with
  | some (.num t) => some t
  | _ => none

/-- Whether a document's `userId` field is the string `uid`, the
`where('userId','==',uid)` test. -/
def userMatches (uid : String) (p : String × ORec) : Bool :=
  match getField p.2 "userId" with
  | some (.str s) => s == uid
  | _ => false

/-- Whether a document matches the query
`where('userId','==',uid).orderBy('createdAt')`: its `userId` field is the
string `uid`, and it carries an orderable `createdAt` (Firestore drops
documents lacking the orderBy field). -/
def queryMatches (uid : String) (p : String × ORec) : Bool :=
  userMatches uid p && (createdAtNum p.2).isSome

/-- Sort key of a matched document: its numeric `createdAt`. -/
def orderKey (p : String × ORec) : Int := (createdAtNum p.2).getD 0

/-- The descending-`createdAt` order used by `orderBy('createdAt', 'desc')`. -/
def createdAtDesc (p q : String × ORec) : Prop := orderKey q ≤ orderKey p

instance : DecidableRel createdAtDesc := fun _ _ => Int.decLe _ _

instance : IsTotal (String × ORec) createdAtDesc :=
  ⟨fun p q => le_total (orderKey q) (orderKey p)⟩

instance : IsTrans (String × ORec) createdAtDesc :=
  ⟨fun _ _ _ hab hbc => le_trans hbc hab⟩

/-- The documents the query returns, in descending `createdAt` order. -/
def queryUserOrders (uid : String) (store : Store) : List (String × ORec) :=
  List.insertionSort createdAtDesc (store.filter (queryMatches uid))

/-- A returned order object `{id, ...doc.data()}`. -/
def recWithId (p : String × ORec) : JVal := .obj (("id", .str p.1) :: p.2)

/-- The get-user-orders handler: run the query and answer the order list. -/
def getUserOrdersHandler (uid : String) (store : Store) : HttpResp :=
  ⟨200, [("success", .bool true),
         ("orders", .arr ((queryUserOrders uid store).map recWithId))]⟩

/-! ### The service as a transition system over the shared store.

An operation is one mutating request; applying it at server time `now`
resolves both awaited external results and yields the next store.  Server
timestamps are monotone across writes (§9 of the spec), which the
reachability relation records as a nondecreasing clock. -/

/-- One mutating request, with the outcomes of its external calls. -/
inductive SysOp where
  | create (b : CreateBody) (gw : Except String RzpOrder) (storeAddRes : Except String String)
  | verify (env : Option String) (b : VerifyBody)
  | updateStatus (firebaseOrderId : String) (status : JVal) (paymentDetails : JVal)

/-- The store produced by handling one request at server time `now`. -/
def applyOp (store : Store) (op : SysOp) (now : Nat) : Store :=
  match op with
  | .create b gw sr => (createOrderHandler b gw sr store now).2.1
  | .verify env b => (verifyPaymentHandler env b store now).1
  | .updateStatus oid st pd => (updateOrderStatusHandler oid st pd store now).1

/-- Both timestamps of a document are numbers with `createdAt ≤ updatedAt`. -/
def tsOk (r : ORec) : Bool :=
  match getField r "createdAt", getField r "updatedAt" with
  | some (.num a), some (.num b) => a ≤ b
  | _, _ => false

/-- The document's `updatedAt` is a number bounded by the clock `t`. -/
def tsBounded (r : ORec) (t : Nat) : Bool :=
  match getField r "updatedAt" with
  | some (.num b) => b ≤ (t : Int)
  | _ => false

/-- When `paidAt` is present, the payment id and signature recorded by the
successful verification are present as strings. -/
def paidLinked (r : ORec) : Bool :=
  match getField r "paidAt" with
  | none => true
  | some _ =>
    (match getField r "razorpayPaymentId" with | some (.str _) => true | _ => false) &&
    (match getField r "razorpaySignature" with | some (.str _) => true | _ => false)

/-- A `paymentDetails` field that leaves the store-managed timestamp and
payment-attempt fields alone. -/
def fieldAllowed (p : String × JVal) : Bool :=
  !(p.1 == "createdAt") && !(p.1 == "updatedAt") && !(p.1 == "paidAt") &&
  !(p.1 == "razorpayPaymentId") && !(p.1 == "razorpaySignature")

/-- Operations whose caller-supplied extra fields avoid the reserved fields;
`create` and `verify` requests are always allowed. -/
def opAllowed : SysOp → Bool
  | .updateStatus _ _ pd =>
      match pd with
      | .obj fs => fs.all fieldAllowed
      | _ => true
  | _ => true

/-- Stores reachable from the empty collection through allowed operations at
nondecreasing server times (`t` is the time of the last write). -/
inductive ReachAllowed : Nat → Store → Prop where
  | init (t : Nat) : ReachAllowed t []
  | step (t tNext : Nat) (s : Store) (op : SysOp) : ReachAllowed t s → t ≤ tNext →
      opAllowed op = true → ReachAllowed tNext (applyOp s op tNext)

/-! ### Lemmas about field reads, field writes and merges. -/

theorem getField_setField_self (r : ORec) (k : String) (v : JVal) :
    getField (setField r k v) k = some v := by
  induction r with
  | nil => simp [setField, getField]
  | cons p rest ih =>
      obtain ⟨k0, v0⟩ := p
      by_cases h : k0 = k
      · subst h; simp [setField, getField]
      · simp [setField, getField, h, ih]

theorem getField_setField_ne (r : ORec) (k k2 : String) (v : JVal) (h : k2 ≠ k) :
    getField (setField r k v) k2 = getField r k2 := by
  induction r with
  | nil => simp [setField, getField, Ne.symm h]
  | cons p rest ih =>
      obtain ⟨k0, v0⟩ := p
      by_cases hk : k0 = k
      · subst hk; simp [setField, getField, Ne.symm h]
      · simp [setField, getField, hk, ih]

theorem mergeFields_nil (r : ORec) : mergeFields r [] = r := rfl

theorem mergeFields_cons (r : ORec) (p : String × JVal) (rest : ORec) :
    mergeFields r (p :: rest) = mergeFields (setField r p.1 p.2) rest := rfl

theorem getField_mergeFields (upd : ORec) (r : ORec) (k : String) :
    getField (mergeFields r upd) k =
      match lastVal upd k with
      | some v => some v
      | none => getField r k := by
  induction upd generalizing r with
  | nil => simp [mergeFields_nil, lastVal]
  | cons p rest ih =>
      rw [mergeFields_cons, ih]
      cases h : lastVal rest k with
      | some v => simp [lastVal, h]
      | none =>
          by_cases hk : p.1 = k
          · simp [lastVal, h, hk, getField_setField_self]
          · simp [lastVal, h, hk, getField_setField_ne _ _ _ _ (Ne.symm hk)]

theorem lastVal_eq_none (l : ORec) (k : String) (h : ∀ p ∈ l, (p.1 == k) = false) :
    lastVal l k = none := by
  induction l with
  | nil => rfl
  | cons p rest ih =>
      have hp := h p (List.mem_cons_self p rest)
      have hr := ih (fun q hq => h q (List.mem_cons_of_mem p hq))
      simp [lastVal, hr, hp]

theorem mem_keys_setField (l : ORec) (k m : String) (v : JVal)
    (h : m ∈ (setField l k v).map Prod.fst) : m ∈ l.map Prod.fst ∨ m = k := by
  induction l with
  | nil =>
      simp [setField] at h
      exact Or.inr h
  | cons p rest ih =>
      obtain ⟨k0, v0⟩ := p
      by_cases hk : k0 = k
      · have hs : setField ((k0, v0) :: rest) k v = (k, v) :: rest := by simp [setField, hk]
        rw [hs, List.map_cons] at h
        rcases List.mem_cons.mp h with h | h
        · exact Or.inr h
        · exact Or.inl (by rw [List.map_cons]; exact List.mem_cons_of_mem _ h)
      · have hs : setField ((k0, v0) :: rest) k v = (k0, v0) :: setField rest k v := by
          simp [setField, hk]
        rw [hs, List.map_cons] at h
        rcases List.mem_cons.mp h with h | h
        · exact Or.inl (by rw [List.map_cons]; exact h ▸ List.mem_cons_self _ _)
        · rcases ih h with h2 | h2
          · exact Or.inl (by rw [List.map_cons]; exact List.mem_cons_of_mem _ h2)
          · exact Or.inr h2

theorem keysNodup_setField (l : ORec) (k : String) (v : JVal)
    (h : (l.map Prod.fst).Nodup) : ((setField l k v).map Prod.fst).Nodup := by
  induction l with
  | nil => simp [setField]
  | cons p rest ih =>
      obtain ⟨k0, v0⟩ := p
      rw [List.map_cons, List.nodup_cons] at h
      by_cases hk : k0 = k
      · have hs : setField ((k0, v0) :: rest) k v = (k, v) :: rest := by simp [setField, hk]
        rw [hs, List.map_cons, List.nodup_cons]
        exact ⟨hk ▸ h.1, h.2⟩
      · have hs : setField ((k0, v0) :: rest) k v = (k0, v0) :: setField rest k v := by
          simp [setField, hk]
        rw [hs, List.map_cons, List.nodup_cons]
        refine ⟨fun hmem => ?_, ih h.2⟩
        rcases mem_keys_setField rest k k0 v hmem with h2 | h2
        · exact h.1 h2
        · exact hk h2

theorem lastVal_eq_none_of_not_mem_keys (l : ORec) (k : String)
    (h : k ∉ l.map Prod.fst) : lastVal l k = none := by
  refine lastVal_eq_none l k (fun p hp => ?_)
  refine beq_eq_false_iff_ne.mpr (fun hq : p.1 = k => ?_)
  exact h (hq ▸ List.mem_map_of_mem Prod.fst hp)

theorem lastVal_setField_self (l : ORec) (k : String) (v : JVal)
    (h : (l.map Prod.fst).Nodup) : lastVal (setField l k v) k = some v := by
  induction l with
  | nil => simp [setField, lastVal]
  | cons p rest ih =>
      obtain ⟨k0, v0⟩ := p
      rw [List.map_cons, List.nodup_cons] at h
      by_cases hk : k0 = k
      · have hs : setField ((k0, v0) :: rest) k v = (k, v) :: rest := by simp [setField, hk]
        have hnone : lastVal rest k = none :=
          lastVal_eq_none_of_not_mem_keys rest k (hk ▸ h.1)
        simp [hs, lastVal, hnone]
      · have hs : setField ((k0, v0) :: rest) k v = (k0, v0) :: setField rest k v := by
          simp [setField, hk]
        simp [hs, lastVal, ih h.2]

theorem lastVal_setField_ne (l : ORec) (k k2 : String) (v : JVal) (h : k ≠ k2) :
    lastVal (setField l k v) k2 = lastVal l k2 := by
  induction l with
  | nil => simp [setField, lastVal, h]
  | cons p rest ih =>
      obtain ⟨k0, v0⟩ := p
      by_cases hk : k0 = k
      · have hs : setField ((k0, v0) :: rest) k v = (k, v) :: rest := by simp [setField, hk]
        rw [hs]
        cases hrest : lastVal rest k2 with
        | some w => simp [lastVal, hrest]
        | none => simp [lastVal, hrest, h, hk ▸ h]
      · have hs : setField ((k0, v0) :: rest) k v = (k0, v0) :: setField rest k v := by
          simp [setField, hk]
        rw [hs]
        cases hrest : lastVal (setField rest k v) k2 with
        | some w => simp [lastVal, hrest, ih ▸ hrest]
        | none => simp [lastVal, hrest, ih ▸ hrest]

theorem lastVal_mergeFields (fs : ORec) (base : ORec) (k : String)
    (h : (base.map Prod.fst).Nodup) :
    lastVal (mergeFields base fs) k =
      match lastVal fs k with
      | some v => some v
      | none => lastVal base k := by
  induction fs generalizing base with
  | nil => simp [mergeFields_nil, lastVal]
  | cons p rest ih =>
      rw [mergeFields_cons, ih _ (keysNodup_setField base p.1 p.2 h)]
      cases hrest : lastVal rest k with
      | some v => simp [lastVal, hrest]
      | none =>
          by_cases hk : p.1 = k
          · simp [lastVal, hrest, hk, hk ▸ lastVal_setField_self base p.1 p.2 h]
          · simp [lastVal, hrest, hk, lastVal_setField_ne base p.1 k p.2 hk]

/-! ### Lemmas about the store. -/

theorem storeGet_storeSet_self (s : Store) (id : String) (r0 r : ORec)
    (h : storeGet s id = some r0) : storeGet (storeSet s id r) id = some r := by
  induction s with
  | nil => simp [storeGet] at h
  | cons p rest ih =>
      obtain ⟨k0, rec0⟩ := p
      by_cases hk : k0 = id
      · subst hk; simp [storeSet, storeGet]
      · simp [storeSet, storeGet, hk] at h ⊢
        exact ih h

theorem mem_of_storeGet (s : Store) (id : String) (r : ORec)
    (h : storeGet s id = some r) : (id, r) ∈ s := by
  induction s with
  | nil => simp [storeGet] at h
  | cons p rest ih =>
      obtain ⟨k0, rec0⟩ := p
      by_cases hk : k0 = id
      · subst hk
        simp [storeGet] at h
        exact h ▸ List.mem_cons_self _ _
      · simp [storeGet, hk] at h
        exact List.mem_cons_of_mem _ (ih h)

theorem mem_storeSet (s : Store) (id : String) (r2 : ORec) (p : String × ORec)
    (h : p ∈ storeSet s id r2) : p ∈ s ∨ p.2 = r2 := by
  induction s with
  | nil => simp [storeSet] at h
  | cons q rest ih =>
      obtain ⟨k0, rec0⟩ := q
      by_cases hk : k0 = id
      · have hs : storeSet ((k0, rec0) :: rest) id r2 = (k0, r2) :: rest := by
          simp [storeSet, hk]
        rw [hs] at h
        rcases List.mem_cons.mp h with h | h
        · exact Or.inr (by rw [h])
        · exact Or.inl (List.mem_cons_of_mem _ h)
      · have hs : storeSet ((k0, rec0) :: rest) id r2 = (k0, rec0) :: storeSet rest id r2 := by
          simp [storeSet, hk]
        rw [hs] at h
        rcases List.mem_cons.mp h with h | h
        · exact Or.inl (h ▸ List.mem_cons_self _ _)
        · rcases ih h with h2 | h2
          · exact Or.inl (List.mem_cons_of_mem _ h2)
          · exact Or.inr h2

theorem storeGet_append (s1 s2 : Store) (id : String) :
    storeGet (s1 ++ s2) id =
      match storeGet s1 id with
      | some r => some r
      | none => storeGet s2 id := by
  induction s1 with
  | nil => simp [storeGet]
  | cons p rest ih =>
      obtain ⟨k0, rec0⟩ := p
      by_cases hk : k0 = id <;> simp [storeGet, hk, ih]

theorem storeUpdate_found (s : Store) (id : String) (upd : ORec) (r : ORec)
    (h : storeGet s id = some r) :
    storeUpdate s id upd = .ok (storeSet s id (mergeFields r upd)) := by
  simp [storeUpdate, h]

theorem storeUpdate_missing (s : Store) (id : String) (upd : ORec)
    (h : storeGet s id = none) :
    storeUpdate s id upd = .error "No document to update" := by
  simp [storeUpdate, h]

/-! ### Lemmas about the record invariants. -/

theorem tsOk_intro (r : ORec) (a b : Int) (hc : getField r "createdAt" = some (.num a))
    (hu : getField r "updatedAt" = some (.num b)) (hab : a ≤ b) : tsOk r = true := by
  unfold tsOk
  rw [hc, hu]
  exact decide_eq_true hab

theorem tsOk_elim (r : ORec) (h : tsOk r = true) :
    ∃ a b : Int, getField r "createdAt" = some (.num a) ∧
      getField r "updatedAt" = some (.num b) ∧ a ≤ b := by
  unfold tsOk at h
  split at h
  · next a b hc hu => exact ⟨a, b, hc, hu, of_decide_eq_true h⟩
  · exact absurd h (by simp)

theorem tsBounded_intro (r : ORec) (t : Nat) (b : Int)
    (hu : getField r "updatedAt" = some (.num b)) (hb : b ≤ (t : Int)) :
    tsBounded r t = true := by
  unfold tsBounded
  rw [hu]
  exact decide_eq_true hb

theorem tsBounded_elim (r : ORec) (t : Nat) (h : tsBounded r t = true) :
    ∃ b : Int, getField r "updatedAt" = some (.num b) ∧ b ≤ (t : Int) := by
  unfold tsBounded at h
  split at h
  · next b hu => exact ⟨b, hu, of_decide_eq_true h⟩
  · exact absurd h (by simp)

theorem tsBounded_mono (r : ORec) (t t2 : Nat) (h : t ≤ t2)
    (hb : tsBounded r t = true) : tsBounded r t2 = true := by
  obtain ⟨b, hu, hbt⟩ := tsBounded_elim r t hb
  exact tsBounded_intro r t2 b hu (le_trans hbt (by exact_mod_cast h))

theorem paidLinked_congr (r2 r : ORec)
    (h1 : getField r2 "paidAt" = getField r "paidAt")
    (h2 : getField r2 "razorpayPaymentId" = getField r "razorpayPaymentId")
    (h3 : getField r2 "razorpaySignature" = getField r "razorpaySignature") :
    paidLinked r2 = paidLinked r := by
  unfold paidLinked
  rw [h1, h2, h3]

theorem tsOk_congr (r2 r : ORec)
    (h1 : getField r2 "createdAt" = getField r "createdAt")
    (h2 : getField r2 "updatedAt" = getField r "updatedAt") :
    tsOk r2 = tsOk r := by
  unfold tsOk
  rw [h1, h2]

/-! ### Digest length lemmas. -/

theorem length_digestBytes (st : ShaState) : (digestBytes st).length = 32 := by
  simp [digestBytes, wordBytes]

theorem length_sha256Bytes (msg : List Nat) : (sha256Bytes msg).length = 32 := by
  unfold sha256Bytes
  exact length_digestBytes _

theorem length_hmacSha256Bytes (key msg : List Nat) :
    (hmacSha256Bytes key msg).length = 32 := by
  unfold hmacSha256Bytes
  exact length_sha256Bytes _

theorem length_foldr_byteHex (bs : List Nat) :
    (bs.foldr (fun b acc => byteHex b ++ acc) []).length = 2 * bs.length := by
  induction bs with
  | nil => simp
  | cons b rest ih =>
      rw [List.foldr_cons, List.length_append, ih]
      simp [byteHex]
      omega

theorem length_bytesToHex (bs : List Nat) : (bytesToHex bs).length = 2 * bs.length := by
  unfold bytesToHex
  show (bs.foldr (fun b acc => byteHex b ++ acc) []).length = 2 * bs.length
  exact length_foldr_byteHex bs

theorem length_hmacSha256Hex (secret message : String) :
    (hmacSha256Hex secret message).length = 64 := by
  unfold hmacSha256Hex
  rw [length_bytesToHex, length_hmacSha256Bytes]

/-! ### Branch lemmas for the verify-payment handler. -/

theorem verify_paid_branch (env : Option String) (b : VerifyBody) (store : Store)
    (now : Nat) (r : ORec)
    (hGet : storeGet store b.firebaseOrderId = some r)
    (hSig : b.razorpay_signature =
      hmacSha256Hex (envSecret env) (b.razorpay_order_id ++ "|" ++ b.razorpay_payment_id)) :
    verifyPaymentHandler env b store now =
      (storeSet store b.firebaseOrderId (mergeFields r
        [("razorpayPaymentId", .str b.razorpay_payment_id),
         ("razorpaySignature", .str b.razorpay_signature),
         ("status", .str "paid"), ("paidAt", .num now), ("updatedAt", .num now)]),
       ⟨200, [("success", .bool true), ("message", .str "Payment verified successfully")]⟩) := by
  have hAuth : verifySig b.razorpay_order_id b.razorpay_payment_id (envSecret env)
      b.razorpay_signature = true := by
    rw [hSig]
    exact beq_self_eq_true _
  simp [verifyPaymentHandler, hAuth, storeUpdate_found store _ _ r hGet]

theorem verify_failed_branch (env : Option String) (b : VerifyBody) (store : Store)
    (now : Nat) (r : ORec)
    (hGet : storeGet store b.firebaseOrderId = some r)
    (hSig : b.razorpay_signature ≠
      hmacSha256Hex (envSecret env) (b.razorpay_order_id ++ "|" ++ b.razorpay_payment_id)) :
    verifyPaymentHandler env b store now =
      (storeSet store b.firebaseOrderId (mergeFields r
        [("status", .str "failed"), ("updatedAt", .num now)]),
       ⟨400, [("success", .bool false), ("message", .str "Payment verification failed")]⟩) := by
  have hAuth : verifySig b.razorpay_order_id b.razorpay_payment_id (envSecret env)
      b.razorpay_signature = false := by
    show (hmacSha256Hex (envSecret env) (b.razorpay_order_id ++ "|" ++ b.razorpay_payment_id) ==
      b.razorpay_signature) = false
    exact beq_eq_false_iff_ne.mpr (fun hEq => hSig hEq.symm)
  simp [verifyPaymentHandler, hAuth, storeUpdate_found store _ _ r hGet]

/-! ### Claim C1. -/

/-- C1: for all strings `a`, `b`, `secret`, the signature verifier accepts
exactly the hex HMAC-SHA256 digest of `a + "|" + b` keyed by `secret`: the
genuine digest is accepted, and every candidate different from it is
rejected.  `verifySig` is a total Lean function, mirroring that the check in
the handler never throws. -/
theorem C1_signature_verifier_exact (a b secret candidate : String) :
    verifySig a b secret (hmacSha256Hex secret (a ++ "|" ++ b)) = true ∧
    (candidate ≠ hmacSha256Hex secret (a ++ "|" ++ b) →
      verifySig a b secret candidate = false) := by
  constructor
  · show (hmacSha256Hex secret (a ++ "|" ++ b) ==
      hmacSha256Hex secret (a ++ "|" ++ b)) = true
    exact beq_self_eq_true _
  · intro h
    show (hmacSha256Hex secret (a ++ "|" ++ b) == candidate) = false
    exact beq_eq_false_iff_ne.mpr (fun hEq => h hEq.symm)

/-- Witness for C1: the genuine digest for `("order_abc", "pay_xyz")` under
secret `"secretkey"` is accepted, and the six-character candidate `"forged"`
(shorter than any 64-character digest) is rejected. -/
theorem C1_signature_verifier_exact_witness :
    verifySig "order_abc" "pay_xyz" "secretkey"
      (hmacSha256Hex "secretkey" ("order_abc" ++ "|" ++ "pay_xyz")) = true ∧
    verifySig "order_abc" "pay_xyz" "secretkey" "forged" = false := by
  refine ⟨(C1_signature_verifier_exact "order_abc" "pay_xyz" "secretkey" "forged").1,
          (C1_signature_verifier_exact "order_abc" "pay_xyz" "secretkey" "forged").2 ?_⟩
  intro hEq
  have hlen := congrArg String.length hEq
  rw [length_hmacSha256Hex] at hlen
  exact absurd hlen (by decide)

/-! ### Claim C9. -/

/-- C9: for an id absent from the store, getOrder answers
`404 {success:false, error:'Order not found'}`; for a present id it returns
the stored record together with its id.  The handler is a total function of
its inputs, so no input makes it throw. -/
theorem C9_get_order_total (orderId : String) (store : Store) :
    (storeGet store orderId = none →
      getOrderHandler orderId store =
        ⟨404, [("success", .bool false), ("error", .str "Order not found")]⟩) ∧
    (∀ r, storeGet store orderId = some r →
      getOrderHandler orderId store =
        ⟨200, [("success", .bool true), ("order", .obj (("id", .str orderId) :: r))]⟩) := by
  constructor
  · intro h; simp [getOrderHandler, h]
  · intro r h; simp [getOrderHandler, h]

/-- Witness for C9: a miss on the empty store and a hit on a one-document
store. -/
theorem C9_get_order_total_witness :
    getOrderHandler "missing" [] =
      ⟨404, [("success", .bool false), ("error", .str "Order not found")]⟩ ∧
    getOrderHandler "o1" [("o1", [("status", .str "pending")])] =
      ⟨200, [("success", .bool true),
             ("order", .obj [("id", .str "o1"), ("status", .str "pending")])]⟩ :=
  ⟨(C9_get_order_total "missing" []).1 rfl,
   (C9_get_order_total "o1" [("o1", [("status", .str "pending")])]).2 _ rfl⟩

/-! ### Claim C10. -/

/-- C10: with the secret environment variable unset, verifyPayment does not
fail: the expected signature is computed from the hardcoded fallback secret
`'your_razorpay_secret_here'`, so a candidate forged with that publicly
visible literal is accepted as authentic and the order is marked paid. -/
theorem C10_fallback_secret_forgeable (b : VerifyBody) (store : Store) (now : Nat)
    (r : ORec)
    (hGet : storeGet store b.firebaseOrderId = some r)
    (hSig : b.razorpay_signature =
      hmacSha256Hex "your_razorpay_secret_here"
        (b.razorpay_order_id ++ "|" ++ b.razorpay_payment_id)) :
    (verifyPaymentHandler none b store now).2 =
      ⟨200, [("success", .bool true), ("message", .str "Payment verified successfully")]⟩ ∧
    ∃ r2, storeGet (verifyPaymentHandler none b store now).1 b.firebaseOrderId = some r2 ∧
      getField r2 "status" = some (.str "paid") := by
  have hb := verify_paid_branch none b store now r hGet hSig
  rw [hb]
  refine ⟨rfl, mergeFields r _, storeGet_storeSet_self store _ r _ hGet, ?_⟩
  rw [getField_mergeFields]
  rfl

/-- Witness for C10: a concrete order in a one-document store is marked paid
by a signature computed with the fallback secret while the environment
variable is unset. -/
theorem C10_fallback_secret_forgeable_witness :
    (verifyPaymentHandler none
      ⟨"order_w", "pay_w",
       hmacSha256Hex "your_razorpay_secret_here" ("order_w" ++ "|" ++ "pay_w"), "fb_w"⟩
      [("fb_w", [("status", .str "pending")])] 5).2 =
      ⟨200, [("success", .bool true), ("message", .str "Payment verified successfully")]⟩ ∧
    ∃ r2, storeGet (verifyPaymentHandler none
      ⟨"order_w", "pay_w",
       hmacSha256Hex "your_razorpay_secret_here" ("order_w" ++ "|" ++ "pay_w"), "fb_w"⟩
      [("fb_w", [("status", .str "pending")])] 5).1 "fb_w" = some r2 ∧
      getField r2 "status" = some (.str "paid") :=
  C10_fallback_secret_forgeable
    ⟨"order_w", "pay_w",
     hmacSha256Hex "your_razorpay_secret_here" ("order_w" ++ "|" ++ "pay_w"), "fb_w"⟩
    [("fb_w", [("status", .str "pending")])] 5 [("status", .str "pending")] rfl rfl

/-! ### Claim C2. -/

/-- C2: on an existing order, a matching signature updates the stored order to
status `paid` with the supplied payment id and signature and a fresh `paidAt`,
answering success with message 'Payment verified successfully'; a mismatch
updates the order to status `failed` leaving payment id, signature and
`paidAt` untouched, answering HTTP 400 with a `message` field and no `error`
field; both branches refresh `updatedAt` to the write time. -/
theorem C2_verify_payment_updates (env : Option String) (b : VerifyBody) (store : Store)
    (now : Nat) (r : ORec)
    (hGet : storeGet store b.firebaseOrderId = some r) :
    (b.razorpay_signature =
        hmacSha256Hex (envSecret env) (b.razorpay_order_id ++ "|" ++ b.razorpay_payment_id) →
      (verifyPaymentHandler env b store now).2 =
        ⟨200, [("success", .bool true), ("message", .str "Payment verified successfully")]⟩ ∧
      ∃ r2, storeGet (verifyPaymentHandler env b store now).1 b.firebaseOrderId = some r2 ∧
        getField r2 "status" = some (.str "paid") ∧
        getField r2 "razorpayPaymentId" = some (.str b.razorpay_payment_id) ∧
        getField r2 "razorpaySignature" = some (.str b.razorpay_signature) ∧
        getField r2 "paidAt" = some (.num now) ∧
        getField r2 "updatedAt" = some (.num now)) ∧
    (b.razorpay_signature ≠
        hmacSha256Hex (envSecret env) (b.razorpay_order_id ++ "|" ++ b.razorpay_payment_id) →
      (verifyPaymentHandler env b store now).2.status = 400 ∧
      getField (verifyPaymentHandler env b store now).2.body "message" =
        some (.str "Payment verification failed") ∧
      getField (verifyPaymentHandler env b store now).2.body "error" = none ∧
      ∃ r2, storeGet (verifyPaymentHandler env b store now).1 b.firebaseOrderId = some r2 ∧
        getField r2 "status" = some (.str "failed") ∧
        getField r2 "razorpayPaymentId" = getField r "razorpayPaymentId" ∧
        getField r2 "razorpaySignature" = getField r "razorpaySignature" ∧
        getField r2 "paidAt" = getField r "paidAt" ∧
        getField r2 "updatedAt" = some (.num now)) := by
  constructor
  · intro hSig
    rw [verify_paid_branch env b store now r hGet hSig]
    refine ⟨rfl, mergeFields r _, storeGet_storeSet_self store _ r _ hGet, ?_, ?_, ?_, ?_, ?_⟩
    all_goals rw [getField_mergeFields]
    all_goals rfl
  · intro hSig
    rw [verify_failed_branch env b store now r hGet hSig]
    refine ⟨rfl, rfl, rfl, mergeFields r _,
            storeGet_storeSet_self store _ r _ hGet, ?_, ?_, ?_, ?_, ?_⟩
    all_goals rw [getField_mergeFields]
    all_goals rfl

/-- Store for the C2 witness: one pending order document under id `f1`. -/
def w2Store : Store :=
  [("f1", [("status", .str "pending"), ("razorpayPaymentId", .null),
           ("razorpaySignature", .null)])]

/-- Matching signature for the C2 witness. -/
def w2SigOk : String := hmacSha256Hex "sk" ("o1" ++ "|" ++ "p1")

/-- C2 witness request with a matching signature. -/
def w2BodyOk : VerifyBody := ⟨"o1", "p1", w2SigOk, "f1"⟩

/-- C2 witness request with a mismatching signature. -/
def w2BodyBad : VerifyBody := ⟨"o1", "p1", "bad", "f1"⟩

/-- Witness for C2: both branches at concrete inputs on a one-document store. -/
theorem C2_verify_payment_updates_witness :
    ((verifyPaymentHandler (some "sk") w2BodyOk w2Store 9).2 =
      ⟨200, [("success", .bool true), ("message", .str "Payment verified successfully")]⟩ ∧
     ∃ r2, storeGet (verifyPaymentHandler (some "sk") w2BodyOk w2Store 9).1 "f1" = some r2 ∧
       getField r2 "status" = some (.str "paid") ∧
       getField r2 "razorpayPaymentId" = some (.str "p1") ∧
       getField r2 "razorpaySignature" = some (.str w2SigOk) ∧
       getField r2 "paidAt" = some (.num 9) ∧
       getField r2 "updatedAt" = some (.num 9)) ∧
    ((verifyPaymentHandler (some "sk") w2BodyBad w2Store 9).2.status = 400 ∧
     getField (verifyPaymentHandler (some "sk") w2BodyBad w2Store 9).2.body "message" =
       some (.str "Payment verification failed") ∧
     getField (verifyPaymentHandler (some "sk") w2BodyBad w2Store 9).2.body "error" = none ∧
     ∃ r2, storeGet (verifyPaymentHandler (some "sk") w2BodyBad w2Store 9).1 "f1" = some r2 ∧
       getField r2 "status" = some (.str "failed") ∧
       getField r2 "razorpayPaymentId" = some .null ∧
       getField r2 "razorpaySignature" = some .null ∧
       getField r2 "paidAt" = none ∧
       getField r2 "updatedAt" = some (.num 9)) := by
  refine ⟨(C2_verify_payment_updates (some "sk") w2BodyOk w2Store 9
            [("status", .str "pending"), ("razorpayPaymentId", .null),
             ("razorpaySignature", .null)] rfl).1 rfl,
          (C2_verify_payment_updates (some "sk") w2BodyBad w2Store 9
            [("status", .str "pending"), ("razorpayPaymentId", .null),
             ("razorpaySignature", .null)] rfl).2 ?_⟩
  intro hEq
  have hlen := congrArg String.length hEq
  rw [length_hmacSha256Hex] at hlen
  exact absurd hlen (by decide)

/-! ### Claim C3. -/

/-- Create-order request body with an empty items array and every other
required field populated. -/
def emptyItemsBody : CreateBody :=
  ⟨.str "u1", .str "a@b.com", .arr [], .num 100, .obj [("name", .str "A")], .num 10000⟩

/-- Counterexample to C3 as stated: an empty `items` array is truthy in
JavaScript, so the `!items` test does not fire — the request with `items: []`
passes validation, the gateway is called, the order is stored, and the
response is 200, not the claimed 400 ValidationError. -/
theorem C3_counterexample :
    (createOrderHandler emptyItemsBody (.ok ⟨"order_abc", 10000, "INR"⟩)
        (.ok "fb1") [] 0).1 =
      [.gatewayCreate (razorpayOrderOptions emptyItemsBody),
       .storeAdd (firebaseOrderData emptyItemsBody "order_abc" 0)] ∧
    (createOrderHandler emptyItemsBody (.ok ⟨"order_abc", 10000, "INR"⟩)
        (.ok "fb1") [] 0).2.2.status = 200 :=
  ⟨rfl, rfl⟩

/-- C3 amended: a createOrder request in which any of the six required inputs
is JavaScript-falsy — absent, null, false, zero or the empty string — fails
with `400 'Missing required fields'` and performs no gateway call, no store
write and no store change; an empty items array (or empty userDetails
object), being truthy, passes validation instead. -/
theorem C3_validation_rejects_falsy (b : CreateBody) (gw : Except String RzpOrder)
    (sr : Except String String) (store : Store) (now : Nat)
    (h : truthy b.userId = false ∨ truthy b.userEmail = false ∨ truthy b.items = false ∨
         truthy b.totalAmount = false ∨ truthy b.userDetails = false ∨
         truthy b.amount = false) :
    createOrderHandler b gw sr store now =
      ([], store,
       ⟨400, [("success", .bool false), ("error", .str "Missing required fields")]⟩) := by
  unfold createOrderHandler
  rcases h with h | h | h | h | h | h <;> simp [h]

/-- Witness for the amended C3: an empty-string `userId` is rejected with 400
and neither external call happens. -/
theorem C3_validation_rejects_falsy_witness :
    createOrderHandler
      ⟨.str "", .str "a@b.com", .arr [.str "x"], .num 100,
       .obj [("name", .str "A")], .num 10000⟩
      (.ok ⟨"order_abc", 10000, "INR"⟩) (.ok "fb1") [] 0 =
      ([], [],
       ⟨400, [("success", .bool false), ("error", .str "Missing required fields")]⟩) :=
  C3_validation_rejects_falsy _ _ _ _ _ (Or.inl rfl)

/-! ### Claim C4. -/

/-- C4: every successful createOrder responds with the remote gateway order
id, the generated local order id and the gateway-echoed amount and currency,
and the record stored under that local id has status `pending` and null
`razorpayPaymentId` and `razorpaySignature`. -/
theorem C4_create_order_success (b : CreateBody) (rzp : RzpOrder) (newId : String)
    (store : Store) (now : Nat)
    (h1 : truthy b.userId = true) (h2 : truthy b.userEmail = true)
    (h3 : truthy b.items = true) (h4 : truthy b.totalAmount = true)
    (h5 : truthy b.userDetails = true) (h6 : truthy b.amount = true)
    (hFresh : storeGet store newId = none) :
    (createOrderHandler b (.ok rzp) (.ok newId) store now).2.2 =
      ⟨200, [("success", .bool true), ("razorpayOrderId", .str rzp.id),
             ("firebaseOrderId", .str newId), ("amount", .num rzp.amount),
             ("currency", .str rzp.currency)]⟩ ∧
    storeGet (createOrderHandler b (.ok rzp) (.ok newId) store now).2.1 newId =
      some (firebaseOrderData b rzp.id now) ∧
    getField (firebaseOrderData b rzp.id now) "status" = some (.str "pending") ∧
    getField (firebaseOrderData b rzp.id now) "razorpayPaymentId" = some .null ∧
    getField (firebaseOrderData b rzp.id now) "razorpaySignature" = some .null := by
  have hres : createOrderHandler b (.ok rzp) (.ok newId) store now =
      ([.gatewayCreate (razorpayOrderOptions b),
        .storeAdd (firebaseOrderData b rzp.id now)],
       store ++ [(newId, firebaseOrderData b rzp.id now)],
       ⟨200, [("success", .bool true), ("razorpayOrderId", .str rzp.id),
              ("firebaseOrderId", .str newId), ("amount", .num rzp.amount),
              ("currency", .str rzp.currency)]⟩) := by
    unfold createOrderHandler
    simp [h1, h2, h3, h4, h5, h6]
  rw [hres]
  refine ⟨rfl, ?_, rfl, rfl, rfl⟩
  rw [storeGet_append, hFresh]
  simp [storeGet]

/-- Fully-populated create-order request body used by witnesses. -/
def validCreateBody : CreateBody :=
  ⟨.str "u1", .str "a@b.com", .arr [.obj [("sku", .str "X"), ("qty", .num 1)]],
   .num 100, .obj [("name", .str "A")], .num 10000⟩

/-- Witness for C4 at concrete inputs on the empty store. -/
theorem C4_create_order_success_witness :
    (createOrderHandler validCreateBody (.ok ⟨"order_abc", 10000, "INR"⟩)
        (.ok "fb1") [] 3).2.2 =
      ⟨200, [("success", .bool true), ("razorpayOrderId", .str "order_abc"),
             ("firebaseOrderId", .str "fb1"), ("amount", .num 10000),
             ("currency", .str "INR")]⟩ ∧
    storeGet (createOrderHandler validCreateBody (.ok ⟨"order_abc", 10000, "INR"⟩)
        (.ok "fb1") [] 3).2.1 "fb1" = some (firebaseOrderData validCreateBody "order_abc" 3) ∧
    getField (firebaseOrderData validCreateBody "order_abc" 3) "status" =
      some (.str "pending") ∧
    getField (firebaseOrderData validCreateBody "order_abc" 3) "razorpayPaymentId" =
      some .null ∧
    getField (firebaseOrderData validCreateBody "order_abc" 3) "razorpaySignature" =
      some .null :=
  C4_create_order_success validCreateBody ⟨"order_abc", 10000, "INR"⟩ "fb1" [] 3
    rfl rfl rfl rfl rfl rfl rfl

/-! ### Run-shape lemmas for the create-order handler. -/

theorem createOrder_run_reject (b : CreateBody) (gw : Except String RzpOrder)
    (sr : Except String String) (store : Store) (now : Nat)
    (h : (!truthy b.userId || !truthy b.userEmail || !truthy b.items ||
          !truthy b.totalAmount || !truthy b.userDetails || !truthy b.amount) = true) :
    createOrderHandler b gw sr store now =
      ([], store,
       ⟨400, [("success", .bool false), ("error", .str "Missing required fields")]⟩) := by
  unfold createOrderHandler
  simp [h]

theorem createOrder_run_gwError (b : CreateBody) (e : String)
    (sr : Except String String) (store : Store) (now : Nat)
    (h : (!truthy b.userId || !truthy b.userEmail || !truthy b.items ||
          !truthy b.totalAmount || !truthy b.userDetails || !truthy b.amount) = false) :
    createOrderHandler b (.error e) sr store now =
      ([.gatewayCreate (razorpayOrderOptions b)], store, serverError e) := by
  unfold createOrderHandler
  simp [h]

theorem createOrder_run_storeError (b : CreateBody) (rzp : RzpOrder) (e : String)
    (store : Store) (now : Nat)
    (h : (!truthy b.userId || !truthy b.userEmail || !truthy b.items ||
          !truthy b.totalAmount || !truthy b.userDetails || !truthy b.amount) = false) :
    createOrderHandler b (.ok rzp) (.error e) store now =
      ([.gatewayCreate (razorpayOrderOptions b),
        .storeAdd (firebaseOrderData b rzp.id now)], store, serverError e) := by
  unfold createOrderHandler
  simp [h]

theorem createOrder_run_ok (b : CreateBody) (rzp : RzpOrder) (newId : String)
    (store : Store) (now : Nat)
    (h : (!truthy b.userId || !truthy b.userEmail || !truthy b.items ||
          !truthy b.totalAmount || !truthy b.userDetails || !truthy b.amount) = false) :
    createOrderHandler b (.ok rzp) (.ok newId) store now =
      ([.gatewayCreate (razorpayOrderOptions b),
        .storeAdd (firebaseOrderData b rzp.id now)],
       store ++ [(newId, firebaseOrderData b rzp.id now)],
       ⟨200, [("success", .bool true), ("razorpayOrderId", .str rzp.id),
              ("firebaseOrderId", .str newId), ("amount", .num rzp.amount),
              ("currency", .str rzp.currency)]⟩) := by
  unfold createOrderHandler
  simp [h]

/-! ### Claim C6. -/

/-- C6: in every execution of createOrder the gateway order creation comes
before any store write (whenever a store write appears in the effect trace,
the trace starts with the gateway call); and when the remote call succeeded
but the local write fails, the trace is exactly the gateway call followed by
the failed write attempt — the store is unchanged (an orphaned remote order
with no local record), the response is a 500, and no compensating gateway
action appears. -/
theorem C6_gateway_call_precedes_store_write (b : CreateBody)
    (gw : Except String RzpOrder) (sr : Except String String) (store : Store) (now : Nat) :
    (∀ doc, Effect.storeAdd doc ∈ (createOrderHandler b gw sr store now).1 →
      (createOrderHandler b gw sr store now).1.head? =
        some (.gatewayCreate (razorpayOrderOptions b))) ∧
    (∀ rzp e, gw = .ok rzp → sr = .error e →
      (!truthy b.userId || !truthy b.userEmail || !truthy b.items ||
       !truthy b.totalAmount || !truthy b.userDetails || !truthy b.amount) = false →
      (createOrderHandler b gw sr store now).1 =
        [.gatewayCreate (razorpayOrderOptions b),
         .storeAdd (firebaseOrderData b rzp.id now)] ∧
      (createOrderHandler b gw sr store now).2.1 = store ∧
      (createOrderHandler b gw sr store now).2.2 = serverError e) := by
  constructor
  · intro doc hmem
    by_cases hv : (!truthy b.userId || !truthy b.userEmail || !truthy b.items ||
        !truthy b.totalAmount || !truthy b.userDetails || !truthy b.amount) = true
    · rw [createOrder_run_reject b gw sr store now hv] at hmem
      simp at hmem
    · have hv2 := eq_false_of_ne_true hv
      cases gw with
      | error e =>
          rw [createOrder_run_gwError b e sr store now hv2] at hmem
          simp at hmem
      | ok rzp =>
          cases sr with
          | error e => rw [createOrder_run_storeError b rzp e store now hv2]; rfl
          | ok newId => rw [createOrder_run_ok b rzp newId store now hv2]; rfl
  · intro rzp e hgw hsr hv
    subst hgw
    subst hsr
    rw [createOrder_run_storeError b rzp e store now hv]
    exact ⟨rfl, rfl, rfl⟩

/-- Witness for C6: with a valid body, a successful gateway call and a
failing store write, the trace is gateway-then-write, the store stays empty
and the response is the 500 carrying the store error. -/
theorem C6_gateway_call_precedes_store_write_witness :
    (createOrderHandler validCreateBody (.ok ⟨"order_abc", 10000, "INR"⟩)
        (.error "boom") [] 7).1.head? =
      some (.gatewayCreate (razorpayOrderOptions validCreateBody)) ∧
    (createOrderHandler validCreateBody (.ok ⟨"order_abc", 10000, "INR"⟩)
        (.error "boom") [] 7).1 =
      [.gatewayCreate (razorpayOrderOptions validCreateBody),
       .storeAdd (firebaseOrderData validCreateBody "order_abc" 7)] ∧
    (createOrderHandler validCreateBody (.ok ⟨"order_abc", 10000, "INR"⟩)
        (.error "boom") [] 7).2.1 = [] ∧
    (createOrderHandler validCreateBody (.ok ⟨"order_abc", 10000, "INR"⟩)
        (.error "boom") [] 7).2.2 = serverError "boom" := by
  obtain ⟨hTrace, hStore, hResp⟩ :=
    (C6_gateway_call_precedes_store_write validCreateBody
      (.ok ⟨"order_abc", 10000, "INR"⟩) (.error "boom") [] 7).2
      ⟨"order_abc", 10000, "INR"⟩ "boom" rfl rfl rfl
  refine ⟨?_, hTrace, hStore, hResp⟩
  exact (C6_gateway_call_precedes_store_write validCreateBody
    (.ok ⟨"order_abc", 10000, "INR"⟩) (.error "boom") [] 7).1
    (firebaseOrderData validCreateBody "order_abc" 7)
    (by rw [hTrace]; exact List.mem_cons_of_mem _ (List.mem_cons_self _ _))

/-! ### Claim C7. -/

/-- Store for the C7 theorems: one pending order with both timestamps 0. -/
def cex7Store : Store :=
  [("o1", [("status", .str "pending"), ("createdAt", .num 0), ("updatedAt", .num 0)])]

/-- Counterexample to C7 as stated: `Object.assign(updateData, paymentDetails)`
runs after `updatedAt` is set, so a caller-supplied `updatedAt` key inside
`paymentDetails` overrides the fresh server timestamp — at server time 100 the
stored `updatedAt` ends up as the caller's 5, not 100. -/
theorem C7_counterexample :
    ((storeGet (updateOrderStatusHandler "o1" (.str "paid")
        (.obj [("updatedAt", .num 5)]) cex7Store 100).1 "o1").bind
      (fun r => getField r "updatedAt")) = some (.num 5) ∧
    ¬ (((storeGet (updateOrderStatusHandler "o1" (.str "paid")
        (.obj [("updatedAt", .num 5)]) cex7Store 100).1 "o1").bind
      (fun r => getField r "updatedAt")) = some (.num 100)) := by
  refine ⟨rfl, fun h => ?_⟩
  rw [show ((storeGet (updateOrderStatusHandler "o1" (.str "paid")
      (.obj [("updatedAt", .num 5)]) cex7Store 100).1 "o1").bind
      (fun r => getField r "updatedAt")) = some (.num 5) from rfl] at h
  injection h with h2
  injection h2 with h3
  exact absurd h3 (by decide)

/-- C7 amended: on an existing order, update-order-status accepts any status
value without validation and merges every caller-supplied `paymentDetails`
field into the record without restriction (caller values winning, even over
`status`); `updatedAt` is refreshed to the fresh server timestamp only when
`paymentDetails` itself carries no `updatedAt` key — a caller-supplied
`updatedAt` overrides the refresh; all other fields are unchanged. -/
theorem C7_update_status_merge (oid : String) (st : JVal) (fs : ORec)
    (store : Store) (now : Nat) (r : ORec)
    (hGet : storeGet store oid = some r) :
    (updateOrderStatusHandler oid st (.obj fs) store now).2 =
      ⟨200, [("success", .bool true), ("message", .str "Order status updated successfully")]⟩ ∧
    ∃ r2, storeGet (updateOrderStatusHandler oid st (.obj fs) store now).1 oid = some r2 ∧
      (∀ k v, lastVal fs k = some v → getField r2 k = some v) ∧
      (lastVal fs "status" = none → getField r2 "status" = some st) ∧
      (lastVal fs "updatedAt" = none → getField r2 "updatedAt" = some (.num now)) ∧
      (∀ k, lastVal fs k = none → k ≠ "status" → k ≠ "updatedAt" →
        getField r2 k = getField r k) := by
  have hNodup : ((([("status", st), ("updatedAt", JVal.num now)] : ORec)).map Prod.fst).Nodup := by
    simp
  have hrun : updateOrderStatusHandler oid st (.obj fs) store now =
      (storeSet store oid
        (mergeFields r (mergeFields [("status", st), ("updatedAt", .num now)] fs)),
       ⟨200, [("success", .bool true),
              ("message", .str "Order status updated successfully")]⟩) := by
    simp [updateOrderStatusHandler, objAssign, storeUpdate, hGet, truthy]
  rw [hrun]
  refine ⟨rfl, mergeFields r (mergeFields [("status", st), ("updatedAt", .num now)] fs),
          storeGet_storeSet_self store _ r _ hGet, ?_, ?_, ?_, ?_⟩
  · intro k v hl
    rw [getField_mergeFields, lastVal_mergeFields fs _ k hNodup, hl]
  · intro hl
    rw [getField_mergeFields, lastVal_mergeFields fs _ "status" hNodup, hl]
    rfl
  · intro hl
    rw [getField_mergeFields, lastVal_mergeFields fs _ "updatedAt" hNodup, hl]
    rfl
  · intro k hl hks hku
    have h1 : ("status" == k) = false := beq_eq_false_iff_ne.mpr (Ne.symm hks)
    have h2 : ("updatedAt" == k) = false := beq_eq_false_iff_ne.mpr (Ne.symm hku)
    rw [getField_mergeFields, lastVal_mergeFields fs _ k hNodup, hl]
    simp [lastVal, h1, h2]

/-- Witness for the amended C7: an unvalidated status value `'shipped'` and an
extra `trackingId` field are merged, `updatedAt` is refreshed to the server
time 50, and `createdAt` is untouched. -/
theorem C7_update_status_merge_witness :
    (updateOrderStatusHandler "o1" (.str "shipped")
        (.obj [("trackingId", .str "T1")]) cex7Store 50).2 =
      ⟨200, [("success", .bool true), ("message", .str "Order status updated successfully")]⟩ ∧
    ∃ r2, storeGet (updateOrderStatusHandler "o1" (.str "shipped")
        (.obj [("trackingId", .str "T1")]) cex7Store 50).1 "o1" = some r2 ∧
      getField r2 "updatedAt" = some (.num 50) ∧
      getField r2 "status" = some (.str "shipped") ∧
      getField r2 "trackingId" = some (.str "T1") ∧
      getField r2 "createdAt" = some (.num 0) := by
  obtain ⟨hresp, r2, hget, hall, hstat, hupd, hframe⟩ :=
    C7_update_status_merge "o1" (.str "shipped") [("trackingId", .str "T1")]
      cex7Store 50
      [("status", .str "pending"), ("createdAt", .num 0), ("updatedAt", .num 0)] rfl
  exact ⟨hresp, r2, hget, hupd rfl, hstat rfl, hall "trackingId" (.str "T1") rfl,
         (hframe "createdAt" rfl (by decide) (by decide)).trans rfl⟩

/-! ### Claim C8. -/

/-- C8: listOrdersForUser answers success with exactly the stored orders
whose `userId` equals the given id (here under the provisos that every such
order carries a numeric `createdAt` — Firestore's `orderBy` would silently
drop the others — and that those `createdAt` values are distinct), sorted in
strictly descending `createdAt` order; for a user with zero orders the list
is empty and the response still succeeds. -/
theorem C8_list_user_orders (uid : String) (store : Store)
    (hAll : ∀ p ∈ store, userMatches uid p = true → (createdAtNum p.2).isSome = true)
    (hKeys : ((store.filter (userMatches uid)).map orderKey).Nodup) :
    getUserOrdersHandler uid store =
      ⟨200, [("success", .bool true),
             ("orders", .arr ((queryUserOrders uid store).map recWithId))]⟩ ∧
    List.Perm (queryUserOrders uid store) (store.filter (userMatches uid)) ∧
    List.Pairwise (fun p q => orderKey q < orderKey p) (queryUserOrders uid store) ∧
    (store.filter (userMatches uid) = [] → queryUserOrders uid store = []) := by
  have hfeq : store.filter (queryMatches uid) = store.filter (userMatches uid) := by
    refine List.filter_congr (fun p hp => ?_)
    unfold queryMatches
    cases hu : userMatches uid p with
    | false => simp [hu]
    | true => simp [hu, hAll p hp hu]
  have hperm : List.Perm (queryUserOrders uid store) (store.filter (userMatches uid)) := by
    unfold queryUserOrders
    rw [hfeq]
    exact List.perm_insertionSort createdAtDesc _
  have hsorted : List.Pairwise createdAtDesc (queryUserOrders uid store) :=
    List.sorted_insertionSort createdAtDesc _
  have hnd : ((queryUserOrders uid store).map orderKey).Nodup :=
    (List.Perm.nodup_iff (hperm.map orderKey)).mpr hKeys
  have hpairne : List.Pairwise (fun p q => orderKey p ≠ orderKey q)
      (queryUserOrders uid store) := List.pairwise_map.mp hnd
  refine ⟨rfl, hperm, ?_, ?_⟩
  · exact (hsorted.and hpairne).imp (fun hpq => lt_of_le_of_ne hpq.1 (Ne.symm hpq.2))
  · intro hempty
    unfold queryUserOrders
    rw [hfeq, hempty]
    rfl

/-- Store for the C8 witness: two orders of user `u1` with distinct creation
times and one order of user `u2`. -/
def w8Store : Store :=
  [("a", [("userId", .str "u1"), ("createdAt", .num 1), ("status", .str "pending")]),
   ("b", [("userId", .str "u2"), ("createdAt", .num 5), ("status", .str "pending")]),
   ("c", [("userId", .str "u1"), ("createdAt", .num 2), ("status", .str "paid")])]

/-- Witness for C8 on a three-document store: the handler succeeds, returns a
permutation of exactly the `u1` orders in strictly descending `createdAt`
order, and the empty-result case is a success, not an error. -/
theorem C8_list_user_orders_witness :
    (getUserOrdersHandler "u1" w8Store =
      ⟨200, [("success", .bool true),
             ("orders", .arr ((queryUserOrders "u1" w8Store).map recWithId))]⟩ ∧
     List.Perm (queryUserOrders "u1" w8Store) (w8Store.filter (userMatches "u1")) ∧
     List.Pairwise (fun p q => orderKey q < orderKey p) (queryUserOrders "u1" w8Store) ∧
     (w8Store.filter (userMatches "u1") = [] → queryUserOrders "u1" w8Store = [])) ∧
    (getUserOrdersHandler "nobody" w8Store =
      ⟨200, [("success", .bool true),
             ("orders", .arr ((queryUserOrders "nobody" w8Store).map recWithId))]⟩ ∧
     List.Perm (queryUserOrders "nobody" w8Store) (w8Store.filter (userMatches "nobody")) ∧
     List.Pairwise (fun p q => orderKey q < orderKey p) (queryUserOrders "nobody" w8Store) ∧
     (w8Store.filter (userMatches "nobody") = [] → queryUserOrders "nobody" w8Store = [])) :=
  ⟨C8_list_user_orders "u1" w8Store (by decide) (by decide),
   C8_list_user_orders "nobody" w8Store (by decide) (by decide)⟩

/-! ### Preservation of the record invariants by each operation. -/

/-- The `updateData` object the update-order-status handler sends to the
store: status and a fresh `updatedAt`, with the caller's `paymentDetails`
assigned over it when truthy. -/
def updateData (st pd : JVal) (now : Nat) : ORec :=
  if truthy pd then objAssign [("status", st), ("updatedAt", .num now)] pd
  else [("status", st), ("updatedAt", .num now)]

/-- A bounded invariant stays valid as the clock advances. -/
theorem inv_mono (t tNext : Nat) (hle : t ≤ tNext) (r : ORec)
    (h : tsOk r = true ∧ tsBounded r t = true ∧ paidLinked r = true) :
    tsOk r = true ∧ tsBounded r tNext = true ∧ paidLinked r = true :=
  ⟨h.1, tsBounded_mono r t tNext hle h.2.1, h.2.2⟩

/-- What `updateData` writes at the reserved keys when the caller's
`paymentDetails` avoids them: nothing at `createdAt`, `paidAt`,
`razorpayPaymentId` and `razorpaySignature`, and the fresh timestamp at
`updatedAt`. -/
theorem updateData_fields (st pd : JVal) (now : Nat)
    (hall : (match pd with | JVal.obj fs => fs.all fieldAllowed | _ => true) = true) :
    lastVal (updateData st pd now) "createdAt" = none ∧
    lastVal (updateData st pd now) "paidAt" = none ∧
    lastVal (updateData st pd now) "razorpayPaymentId" = none ∧
    lastVal (updateData st pd now) "razorpaySignature" = none ∧
    lastVal (updateData st pd now) "updatedAt" = some (.num now) := by
  have hbase : ∀ k : String, k ≠ "updatedAt" → k ≠ "status" →
      lastVal ([("status", st), ("updatedAt", JVal.num now)] : ORec) k = none := by
    intro k h1 h2
    simp [lastVal, beq_eq_false_iff_ne.mpr (Ne.symm h2), beq_eq_false_iff_ne.mpr (Ne.symm h1)]
  cases pd with
  | obj fs =>
      have hN : (((([("status", st), ("updatedAt", JVal.num now)]) : ORec)).map Prod.fst).Nodup := by
        simp
      have hfs : ∀ p ∈ fs, fieldAllowed p = true := List.all_eq_true.mp hall
      have hkey : ∀ (k : String), (∀ p ∈ fs, fieldAllowed p = true → (p.1 == k) = false) →
          lastVal fs k = none := by
        intro k hk
        exact lastVal_eq_none fs k (fun p hp => hk p hp (hfs p hp))
      have hu : updateData st (.obj fs) now =
          mergeFields [("status", st), ("updatedAt", JVal.num now)] fs := by
        simp [updateData, truthy, objAssign]
      rw [hu]
      refine ⟨?_, ?_, ?_, ?_, ?_⟩
      · rw [lastVal_mergeFields fs _ _ hN,
            hkey "createdAt" (fun p _ hf => by
              simp [fieldAllowed] at hf
              exact beq_eq_false_iff_ne.mpr hf.1.1.1.1)]
        exact hbase "createdAt" (by decide) (by decide)
      · rw [lastVal_mergeFields fs _ _ hN,
            hkey "paidAt" (fun p _ hf => by
              simp [fieldAllowed] at hf
              exact beq_eq_false_iff_ne.mpr hf.1.1.2)]
        exact hbase "paidAt" (by decide) (by decide)
      · rw [lastVal_mergeFields fs _ _ hN,
            hkey "razorpayPaymentId" (fun p _ hf => by
              simp [fieldAllowed] at hf
              exact beq_eq_false_iff_ne.mpr hf.1.2)]
        exact hbase "razorpayPaymentId" (by decide) (by decide)
      · rw [lastVal_mergeFields fs _ _ hN,
            hkey "razorpaySignature" (fun p _ hf => by
              simp [fieldAllowed] at hf
              exact beq_eq_false_iff_ne.mpr hf.2)]
        exact hbase "razorpaySignature" (by decide) (by decide)
      · rw [lastVal_mergeFields fs _ _ hN,
            hkey "updatedAt" (fun p _ hf => by
              simp [fieldAllowed] at hf
              exact beq_eq_false_iff_ne.mpr hf.1.1.1.2)]
        rfl
  | undef => simp [updateData, truthy, lastVal]
  | null => simp [updateData, truthy, lastVal]
  | bool b => cases b <;> simp [updateData, truthy, objAssign, lastVal]
  | num n =>
      by_cases hz : (n == 0) = true <;>
        simp [updateData, truthy, objAssign, lastVal, hz]
  | str s =>
      by_cases hz : (s == "") = true <;>
        simp [updateData, truthy, objAssign, lastVal, hz]
  | arr xs => simp [updateData, truthy, objAssign, lastVal]

/-- Every allowed operation preserves the record invariants (well-formed
bounded timestamps and payment data behind `paidAt`) across the store. -/
theorem step_preserves (s : Store) (op : SysOp) (t tNext : Nat) (hle : t ≤ tNext)
    (hallowed : opAllowed op = true)
    (ih : ∀ p ∈ s, tsOk p.2 = true ∧ tsBounded p.2 t = true ∧ paidLinked p.2 = true) :
    ∀ p ∈ applyOp s op tNext,
      tsOk p.2 = true ∧ tsBounded p.2 tNext = true ∧ paidLinked p.2 = true := by
  cases op with
  | create b gw sr =>
      intro p hp
      simp only [applyOp] at hp
      by_cases hv : (!truthy b.userId || !truthy b.userEmail || !truthy b.items ||
          !truthy b.totalAmount || !truthy b.userDetails || !truthy b.amount) = true
      · rw [createOrder_run_reject b gw sr s tNext hv] at hp
        exact inv_mono t tNext hle p.2 (ih p hp)
      · have hv2 := eq_false_of_ne_true hv
        cases gw with
        | error e =>
            rw [createOrder_run_gwError b e sr s tNext hv2] at hp
            exact inv_mono t tNext hle p.2 (ih p hp)
        | ok rzp =>
            cases sr with
            | error e =>
                rw [createOrder_run_storeError b rzp e s tNext hv2] at hp
                exact inv_mono t tNext hle p.2 (ih p hp)
            | ok newId =>
                rw [createOrder_run_ok b rzp newId s tNext hv2] at hp
                have hp2 : p ∈ s ++ [(newId, firebaseOrderData b rzp.id tNext)] := hp
                rcases List.mem_append.mp hp2 with hmem | hmem
                · exact inv_mono t tNext hle p.2 (ih p hmem)
                · have hp3 : p = (newId, firebaseOrderData b rzp.id tNext) :=
                    List.mem_singleton.mp hmem
                  rw [hp3]
                  exact ⟨tsOk_intro _ (tNext : Int) (tNext : Int) rfl rfl (le_refl _),
                         tsBounded_intro _ tNext (tNext : Int) rfl (le_refl _), rfl⟩
  | verify env b =>
      intro p hp
      simp only [applyOp] at hp
      cases hg : storeGet s b.firebaseOrderId with
      | none =>
          have hstore : (verifyPaymentHandler env b s tNext).1 = s := by
            unfold verifyPaymentHandler
            by_cases hA : verifySig b.razorpay_order_id b.razorpay_payment_id
                (envSecret env) b.razorpay_signature = true <;>
              simp [hA, storeUpdate, hg]
          rw [hstore] at hp
          exact inv_mono t tNext hle p.2 (ih p hp)
      | some r =>
          have hr := ih (b.firebaseOrderId, r) (mem_of_storeGet s _ r hg)
          obtain ⟨a0, b0, hc0, hu0, hab0⟩ := tsOk_elim r hr.1
          obtain ⟨b1, hu1, hb1⟩ := tsBounded_elim r t hr.2.1
          rw [hu0] at hu1
          injection hu1 with h9
          injection h9 with h10
          by_cases hA : b.razorpay_signature =
              hmacSha256Hex (envSecret env) (b.razorpay_order_id ++ "|" ++ b.razorpay_payment_id)
          · rw [verify_paid_branch env b s tNext r hg hA] at hp
            have hp2 : p ∈ storeSet s b.firebaseOrderId (mergeFields r
                [("razorpayPaymentId", .str b.razorpay_payment_id),
                 ("razorpaySignature", .str b.razorpay_signature),
                 ("status", .str "paid"), ("paidAt", .num tNext),
                 ("updatedAt", .num tNext)]) := hp
            rcases mem_storeSet s _ _ p hp2 with hmem | heq
            · exact inv_mono t tNext hle p.2 (ih p hmem)
            · rw [heq]
              have hcNew : getField (mergeFields r
                  [("razorpayPaymentId", .str b.razorpay_payment_id),
                   ("razorpaySignature", .str b.razorpay_signature),
                   ("status", .str "paid"), ("paidAt", .num tNext),
                   ("updatedAt", .num tNext)]) "createdAt" = some (.num a0) := by
                rw [getField_mergeFields]
                exact hc0
              refine ⟨tsOk_intro _ a0 (tNext : Int) hcNew
                        (by rw [getField_mergeFields]; rfl) (by omega),
                      tsBounded_intro _ tNext (tNext : Int)
                        (by rw [getField_mergeFields]; rfl) (le_refl _), ?_⟩
              unfold paidLinked
              rw [show getField (mergeFields r
                  [("razorpayPaymentId", .str b.razorpay_payment_id),
                   ("razorpaySignature", .str b.razorpay_signature),
                   ("status", .str "paid"), ("paidAt", .num tNext),
                   ("updatedAt", .num tNext)]) "paidAt" = some (.num tNext) from
                    by rw [getField_mergeFields]; rfl,
                  show getField (mergeFields r
                  [("razorpayPaymentId", .str b.razorpay_payment_id),
                   ("razorpaySignature", .str b.razorpay_signature),
                   ("status", .str "paid"), ("paidAt", .num tNext),
                   ("updatedAt", .num tNext)]) "razorpayPaymentId" =
                    some (.str b.razorpay_payment_id) from by rw [getField_mergeFields]; rfl,
                  show getField (mergeFields r
                  [("razorpayPaymentId", .str b.razorpay_payment_id),
                   ("razorpaySignature", .str b.razorpay_signature),
                   ("status", .str "paid"), ("paidAt", .num tNext),
                   ("updatedAt", .num tNext)]) "razorpaySignature" =
                    some (.str b.razorpay_signature) from by rw [getField_mergeFields]; rfl]
              rfl
          · rw [verify_failed_branch env b s tNext r hg hA] at hp
            have hp2 : p ∈ storeSet s b.firebaseOrderId (mergeFields r
                [("status", .str "failed"), ("updatedAt", .num tNext)]) := hp
            rcases mem_storeSet s _ _ p hp2 with hmem | heq
            · exact inv_mono t tNext hle p.2 (ih p hmem)
            · rw [heq]
              have hcNew : getField (mergeFields r
                  [("status", .str "failed"), ("updatedAt", .num tNext)]) "createdAt" =
                  some (.num a0) := by
                rw [getField_mergeFields]
                exact hc0
              have hPL : paidLinked (mergeFields r
                  [("status", .str "failed"), ("updatedAt", .num tNext)]) = paidLinked r :=
                paidLinked_congr _ r (by rw [getField_mergeFields]; rfl)
                  (by rw [getField_mergeFields]; rfl) (by rw [getField_mergeFields]; rfl)
              exact ⟨tsOk_intro _ a0 (tNext : Int) hcNew
                       (by rw [getField_mergeFields]; rfl) (by omega),
                     tsBounded_intro _ tNext (tNext : Int)
                       (by rw [getField_mergeFields]; rfl) (le_refl _),
                     hPL.trans hr.2.2⟩
  | updateStatus oid st pd =>
      intro p hp
      simp only [applyOp] at hp
      cases hg : storeGet s oid with
      | none =>
          have hstore : (updateOrderStatusHandler oid st pd s tNext).1 = s := by
            unfold updateOrderStatusHandler
            simp [storeUpdate, hg]
          rw [hstore] at hp
          exact inv_mono t tNext hle p.2 (ih p hp)
      | some r =>
          have hr := ih (oid, r) (mem_of_storeGet s _ r hg)
          obtain ⟨a0, b0, hc0, hu0, hab0⟩ := tsOk_elim r hr.1
          obtain ⟨b1, hu1, hb1⟩ := tsBounded_elim r t hr.2.1
          rw [hu0] at hu1
          injection hu1 with h9
          injection h9 with h10
          obtain ⟨e1, e2, e3, e4, e5⟩ := updateData_fields st pd tNext hallowed
          have hrun : (updateOrderStatusHandler oid st pd s tNext).1 =
              storeSet s oid (mergeFields r (updateData st pd tNext)) := by
            unfold updateOrderStatusHandler updateData
            simp [storeUpdate, hg]
          rw [hrun] at hp
          rcases mem_storeSet s _ _ p hp with hmem | heq
          · exact inv_mono t tNext hle p.2 (ih p hmem)
          · rw [heq]
            have hcNew : getField (mergeFields r (updateData st pd tNext)) "createdAt" =
                some (.num a0) := by
              rw [getField_mergeFields, e1]
              exact hc0
            have huNew : getField (mergeFields r (updateData st pd tNext)) "updatedAt" =
                some (.num tNext) := by
              rw [getField_mergeFields, e5]
            have hPL : paidLinked (mergeFields r (updateData st pd tNext)) = paidLinked r :=
              paidLinked_congr _ r (by rw [getField_mergeFields, e2])
                (by rw [getField_mergeFields, e3]) (by rw [getField_mergeFields, e4])
            exact ⟨tsOk_intro _ a0 (tNext : Int) hcNew huNew (by omega),
                   tsBounded_intro _ tNext (tNext : Int) huNew (le_refl _),
                   hPL.trans hr.2.2⟩

/-- The record invariants hold in every reachable store. -/
theorem reach_inv (t : Nat) (s : Store) (h : ReachAllowed t s) :
    ∀ p ∈ s, tsOk p.2 = true ∧ tsBounded p.2 t = true ∧ paidLinked p.2 = true := by
  induction h with
  | init t0 => intro p hp; simp at hp
  | step t0 tNext s0 op hreach hle hallowed ih =>
      exact step_preserves s0 op t0 tNext hle hallowed ih

/-! ### Claim C5. -/

/-- Matching signature for the C5 counterexample: the digest of
`order_abc|pay_xyz` under secret `sk`. -/
def cex5Sig : String := hmacSha256Hex "sk" ("order_abc" ++ "|" ++ "pay_xyz")

/-- C5 counterexample, step 1: create an order at server time 10. -/
def cex5Store1 : Store :=
  applyOp [] (.create validCreateBody (.ok ⟨"order_abc", 10000, "INR"⟩) (.ok "fb1")) 10

/-- C5 counterexample, step 2: a successful verification at time 11. -/
def cex5Store2 : Store :=
  applyOp cex5Store1 (.verify (some "sk") ⟨"order_abc", "pay_xyz", cex5Sig, "fb1"⟩) 11

/-- C5 counterexample, step 3: a failed verification at time 12. -/
def cex5Store3 : Store :=
  applyOp cex5Store2 (.verify (some "sk") ⟨"order_abc", "pay_xyz", "tampered", "fb1"⟩) 12

/-- C5 counterexample, step 4: an update-order-status call at time 13 whose
`paymentDetails` carries its own `updatedAt`. -/
def cex5Store4 : Store :=
  applyOp cex5Store3 (.updateStatus "fb1" (.str "failed") (.obj [("updatedAt", .num 3)])) 13

/-- The order document after step 1. -/
def cex5Rec1 : ORec := firebaseOrderData validCreateBody "order_abc" 10

/-- The order document after step 2. -/
def cex5Rec2 : ORec :=
  mergeFields cex5Rec1
    [("razorpayPaymentId", .str "pay_xyz"), ("razorpaySignature", .str cex5Sig),
     ("status", .str "paid"), ("paidAt", .num 11), ("updatedAt", .num 11)]

/-- The order document after step 3. -/
def cex5Rec3 : ORec :=
  mergeFields cex5Rec2 [("status", .str "failed"), ("updatedAt", .num 12)]

/-- Counterexample to C5 as stated: after create, verify-success and
verify-failure (all ordinary service operations at increasing server times),
the stored record has `paidAt` present while `status` is `failed`; and one
further update-order-status call whose `paymentDetails` smuggles in
`updatedAt: 3` leaves `createdAt = 10 > updatedAt = 3`.  Both halves of the
claimed invariant fail on reachable records. -/
theorem C5_counterexample :
    ((storeGet cex5Store3 "fb1").bind (fun r => getField r "status") =
      some (.str "failed")) ∧
    ((storeGet cex5Store3 "fb1").bind (fun r => getField r "paidAt") =
      some (.num 11)) ∧
    ((storeGet cex5Store4 "fb1").bind (fun r => getField r "createdAt") =
      some (.num 10)) ∧
    ((storeGet cex5Store4 "fb1").bind (fun r => getField r "updatedAt") =
      some (.num 3)) ∧
    ¬ ((10 : Int) ≤ 3) := by
  have hd1 : storeGet cex5Store1 "fb1" = some cex5Rec1 := by
    simp only [cex5Store1, applyOp]
    rw [createOrder_run_ok validCreateBody ⟨"order_abc", 10000, "INR"⟩ "fb1" [] 10 rfl]
    rfl
  have hd2 : storeGet cex5Store2 "fb1" = some cex5Rec2 := by
    simp only [cex5Store2, applyOp]
    rw [verify_paid_branch (some "sk") ⟨"order_abc", "pay_xyz", cex5Sig, "fb1"⟩
        cex5Store1 11 cex5Rec1 hd1 rfl]
    exact storeGet_storeSet_self cex5Store1 "fb1" cex5Rec1 _ hd1
  have hne : ("tampered" : String) ≠
      hmacSha256Hex (envSecret (some "sk")) ("order_abc" ++ "|" ++ "pay_xyz") := by
    intro hEq
    have hlen := congrArg String.length hEq
    rw [length_hmacSha256Hex] at hlen
    exact absurd hlen (by decide)
  have hd3 : storeGet cex5Store3 "fb1" = some cex5Rec3 := by
    simp only [cex5Store3, applyOp]
    rw [verify_failed_branch (some "sk") ⟨"order_abc", "pay_xyz", "tampered", "fb1"⟩
        cex5Store2 12 cex5Rec2 hd2 hne]
    exact storeGet_storeSet_self cex5Store2 "fb1" cex5Rec2 _ hd2
  have hd4 : storeGet cex5Store4 "fb1" =
      some (mergeFields cex5Rec3
        (mergeFields [("status", JVal.str "failed"), ("updatedAt", JVal.num 13)]
          [("updatedAt", JVal.num 3)])) := by
    simp only [cex5Store4, applyOp]
    have hrun : (updateOrderStatusHandler "fb1" (.str "failed")
        (.obj [("updatedAt", .num 3)]) cex5Store3 13).1 =
        storeSet cex5Store3 "fb1" (mergeFields cex5Rec3
          (mergeFields [("status", JVal.str "failed"), ("updatedAt", JVal.num 13)]
            [("updatedAt", JVal.num 3)])) := by
      unfold updateOrderStatusHandler
      simp [storeUpdate, hd3, truthy, objAssign]
    rw [hrun]
    exact storeGet_storeSet_self cex5Store3 "fb1" cex5Rec3 _ hd3
  refine ⟨?_, ?_, ?_, ?_, by decide⟩
  · rw [hd3]; rfl
  · rw [hd3]; rfl
  · rw [hd4]; rfl
  · rw [hd4]; rfl

/-- C5 amended: for every store reachable through createOrder and
verifyPayment operations at nondecreasing server times, together with
updateOrderStatus calls whose `paymentDetails` leaves the reserved fields
(`createdAt`, `updatedAt`, `paidAt`, `razorpayPaymentId`,
`razorpaySignature`) alone, every stored record satisfies
`createdAt ≤ updatedAt`; and `paidAt`, which CAN be present while status is
`failed` (a failed verification after a successful one leaves it in place),
is present only together with the recorded payment id and signature of a
successful verification. -/
theorem C5_reachable_record_invariants (t : Nat) (s : Store) (h : ReachAllowed t s) :
    ∀ p ∈ s, tsOk p.2 = true ∧ paidLinked p.2 = true :=
  fun p hp => ⟨(reach_inv t s h p hp).1, (reach_inv t s h p hp).2.2⟩

/-- Witness for the amended C5: the store reached by a create at time 10
followed by a successful verification at time 11 satisfies both record
invariants. -/
theorem C5_reachable_record_invariants_witness :
    tsOk cex5Rec2 = true ∧ paidLinked cex5Rec2 = true := by
  have hreach1 : ReachAllowed 10 cex5Store1 :=
    ReachAllowed.step 10 10 []
      (.create validCreateBody (.ok ⟨"order_abc", 10000, "INR"⟩) (.ok "fb1"))
      (ReachAllowed.init 10) (le_refl 10) rfl
  have hreach2 : ReachAllowed 11 cex5Store2 :=
    ReachAllowed.step 10 11 cex5Store1
      (.verify (some "sk") ⟨"order_abc", "pay_xyz", cex5Sig, "fb1"⟩)
      hreach1 (by omega) rfl
  have hd1 : storeGet cex5Store1 "fb1" = some cex5Rec1 := by
    simp only [cex5Store1, applyOp]
    rw [createOrder_run_ok validCreateBody ⟨"order_abc", 10000, "INR"⟩ "fb1" [] 10 rfl]
    rfl
  have hmem : ("fb1", cex5Rec2) ∈ cex5Store2 := by
    have hd2 : storeGet cex5Store2 "fb1" = some cex5Rec2 := by
      simp only [cex5Store2, applyOp]
      rw [verify_paid_branch (some "sk") ⟨"order_abc", "pay_xyz", cex5Sig, "fb1"⟩
          cex5Store1 11 cex5Rec1 hd1 rfl]
      exact storeGet_storeSet_self cex5Store1 "fb1" cex5Rec1 _ hd1
    exact mem_of_storeGet cex5Store2 "fb1" cex5Rec2 hd2
  exact C5_reachable_record_invariants 11 cex5Store2 hreach2 ("fb1", cex5Rec2) hmem

/-! ### Standard test vectors pinning the embedded hash to real SHA-256. -/

/-- FIPS 180-4 vector: SHA-256 of the empty message. -/
theorem sha256_empty_vector :
    bytesToHex (sha256Bytes []) =
      "e3b0c44298fc1c149afbf4c8996fb92427ae41e4649b934ca495991b7852b855" := by
  decide

/-- FIPS 180-4 vector: SHA-256 of `"abc"`. -/
theorem sha256_abc_vector :
    bytesToHex (sha256Bytes (strBytes "abc")) =
      "ba7816bf8f01cfea414140de5dae2223b00361a396177a9cb410ff61f20015ad" := by
  decide

/-- RFC 4231 test case 2: HMAC-SHA256 with key `"Jefe"`. -/
theorem hmac_rfc4231_case2_vector :
    hmacSha256Hex "Jefe" "what do ya want for nothing?" =
      "5bdcc146bf60754e6a042426089575c75a003f089d2739839dec58b964ec3843" := by
  decide
